import Mathlib

/-!
Shallow embedding of the opensight-network configuration engine
(src/netplan.rs, src/custom_types.rs, src/misc.rs, src/models/) together
with theorems checking the specification claims about it.

Modelling conventions:
- Rust `HashMap` / `serde_yml::Mapping` values are modelled as association
  lists (`List (String × α)`); `insert` replaces the first binding of an
  existing key and appends otherwise, and claims about map contents are
  stated as membership / lookup facts, which are order independent.
- Fallible Rust code (`io::Result`, serde errors) is modelled with
  `Except` / `Option`; a Rust panic (`unwrap` / `expect` on a bad value)
  is modelled as `none` or a dedicated `panicked` outcome.
- Machine integers (`u32`, `u16`, `usize`) are modelled as `Nat`; the
  code under consideration never overflows (it only compares and formats),
  so no modular reduction is needed; where the u32 domain matters it is an
  explicit hypothesis `value < 2 ^ 32`.
-/

set_option maxRecDepth 10000

namespace OpensightNet

/-! ### Association lists (Rust HashMap / serde_yml Mapping) -/

def alGet {α : Type} (k : String) : List (String × α) → Option α
  | [] => none
  | (k', v) :: rest => if k' = k then some v else alGet k rest

def alInsert {α : Type} (k : String) (v : α) : List (String × α) → List (String × α)
  | [] => [(k, v)]
  | (k', v') :: rest => if k' = k then (k, v) :: rest else (k', v') :: alInsert k v rest

/-! ### IP addresses (std::net::IpAddr), as used by the models -/

structure Ipv4Addr where
  o0 : Nat
  o1 : Nat
  o2 : Nat
  o3 : Nat
deriving DecidableEq, Repr

/-- IPv6 address as eight 16-bit segments. -/
structure Ipv6Addr where
  s0 : Nat
  s1 : Nat
  s2 : Nat
  s3 : Nat
  s4 : Nat
  s5 : Nat
  s6 : Nat
  s7 : Nat
deriving DecidableEq, Repr

inductive IpAddr where
  | v4 : Ipv4Addr → IpAddr
  | v6 : Ipv6Addr → IpAddr
deriving DecidableEq, Repr

def Ipv4Addr.is_unspecified (a : Ipv4Addr) : Bool :=
  a.o0 == 0 && a.o1 == 0 && a.o2 == 0 && a.o3 == 0

def Ipv6Addr.segments (a : Ipv6Addr) : List Nat :=
  [a.s0, a.s1, a.s2, a.s3, a.s4, a.s5, a.s6, a.s7]

def Ipv6Addr.is_unspecified (a : Ipv6Addr) : Bool :=
  a.segments.all (fun s => s == 0)

def IpAddr.is_unspecified : IpAddr → Bool
  | .v4 a => a.is_unspecified
  | .v6 a => a.is_unspecified

/-- Display of an IPv4 address, `a.b.c.d` (std Display impl). -/
def Ipv4Addr.toDisplay (a : Ipv4Addr) : String :=
  toString a.o0 ++ "." ++ toString a.o1 ++ "." ++ toString a.o2 ++ "." ++ toString a.o3

/-- Lowercase hexadecimal rendering of a 16-bit segment, no padding. -/
def hexStr (n : Nat) : String :=
  String.mk (Nat.toDigits 16 n)

/-- The IPv4-mapped form `::ffff:a.b.c.d` recognized by std Display. -/
def Ipv6Addr.to_ipv4_mapped (a : Ipv6Addr) : Option Ipv4Addr :=
  if a.s0 == 0 && a.s1 == 0 && a.s2 == 0 && a.s3 == 0 && a.s4 == 0 && a.s5 == 0xffff then
    some ⟨a.s6 / 256, a.s6 % 256, a.s7 / 256, a.s7 % 256⟩
  else none

structure ZeroSpan where
  start : Nat
  len : Nat
deriving DecidableEq, Repr

/-- Longest run of zero segments (first one wins ties), as in std Display
for Ipv6Addr. -/
def longestZeroRun (segs : List Nat) : ZeroSpan :=
  let step := fun (st : Nat × ZeroSpan × ZeroSpan) (seg : Nat) =>
    let i := st.1
    let current := st.2.1
    let longest := st.2.2
    if seg == 0 then
      let current' : ZeroSpan := ⟨if current.len == 0 then i else current.start, current.len + 1⟩
      let longest' := if current'.len > longest.len then current' else longest
      (i + 1, current', longest')
    else
      (i + 1, ⟨0, 0⟩, longest)
  ((segs.foldl step (0, ⟨0, 0⟩, ⟨0, 0⟩)).2.2)

def fmtSubslice (segs : List Nat) : String :=
  String.intercalate ":" (segs.map hexStr)

/-- Display of an IPv6 address following the std algorithm: IPv4-mapped
special case, then compression of the longest zero run when it has at
least two segments. -/
def Ipv6Addr.toDisplay (a : Ipv6Addr) : String :=
  match a.to_ipv4_mapped with
  | some m => "::ffff:" ++ m.toDisplay
  | none =>
    let segs := a.segments
    let zeroes := longestZeroRun segs
    if zeroes.len > 1 then
      fmtSubslice (segs.take zeroes.start) ++ "::" ++
        fmtSubslice (segs.drop (zeroes.start + zeroes.len))
    else
      fmtSubslice segs

def IpAddr.toDisplay : IpAddr → String
  | .v4 a => a.toDisplay
  | .v6 a => a.toDisplay

def ipv4Unspecified : IpAddr := .v4 ⟨0, 0, 0, 0⟩

def ipv6Unspecified : IpAddr := .v6 ⟨0, 0, 0, 0, 0, 0, 0, 0⟩

/-! ### YAML values (serde_yml::Value), with string keys as used by the code -/

inductive Yaml where
  | null : Yaml
  | bool : Bool → Yaml
  | nat : Nat → Yaml
  | str : String → Yaml
  | seq : List Yaml → Yaml
  | map : List (String × Yaml) → Yaml

def Yaml.as_bool : Yaml → Option Bool
  | .bool b => some b
  | _ => none

def Yaml.as_nat : Yaml → Option Nat
  | .nat n => some n
  | _ => none

def Yaml.as_str : Yaml → Option String
  | .str s => some s
  | _ => none

def Yaml.as_mapping : Yaml → Option (List (String × Yaml))
  | .map m => some m
  | _ => none

def Yaml.as_sequence : Yaml → Option (List Yaml)
  | .seq s => some s
  | _ => none

/-- serde_yml Value indexing: missing key or non-mapping gives Null. -/
def yamlIndex (doc : Yaml) (key : String) : Yaml :=
  match doc with
  | .map entries => (alGet key entries).getD .null
  | _ => .null

/-! ### custom_types.rs: BoundedU32 -/

structure BoundedU32 (MIN MAX : Nat) where
  value : Nat
deriving DecidableEq, Repr

/-- Rust `BoundedU32::<MIN, MAX>::new` from src/custom_types.rs. -/
def BoundedU32.new (MIN MAX : Nat) (value : Nat) : Option (BoundedU32 MIN MAX) :=
  if MIN ≤ value ∧ value ≤ MAX then some ⟨value⟩ else none

/-- Rust `MTU` type alias from src/models/device.rs. -/
abbrev MTU := BoundedU32 68 64000

/-- Rust `MTUV6` type alias from src/models/device.rs. -/
abbrev MTUV6 := BoundedU32 1280 64000

/-! ### models/route.rs -/

/-- Rust `Route` from src/models/route.rs; the Rust field `from` is a Lean
keyword and is called `fromAddr` here; likewise `to` is called `toAddr`. -/
structure Route where
  fromAddr : Option IpAddr
  toAddr : IpAddr
  via : Option IpAddr
deriving DecidableEq, Repr

/-- Rust `Route::id` from src/models/route.rs. -/
def Route.id (r : Route) : String :=
  (match r.fromAddr with
    | some f => f.toDisplay
    | none => "from") ++ "-" ++
  (if r.toAddr.is_unspecified then "default" else r.toAddr.toDisplay) ++ "-" ++
  (match r.via with
    | some v => v.toDisplay
    | none => "via")

/-- Modelled from the spec wording of Route identity: the deterministic
string formed from the triple, with the sentinels "from" and "via" for
absent endpoints and "default" for an unspecified destination. -/
def routeIdSpec (r : Route) : String :=
  (match r.fromAddr with
    | some f => f.toDisplay
    | none => "from") ++ "-" ++
  (if r.toAddr.is_unspecified then "default" else r.toAddr.toDisplay) ++ "-" ++
  (match r.via with
    | some v => v.toDisplay
    | none => "via")

/-! ### models/nameservers.rs, addresses, models/ethernet.rs, models/network.rs -/

structure Nameservers where
  search : List String
  addresses : List IpAddr
deriving DecidableEq, Repr

def Nameservers.new : Nameservers := ⟨[], []⟩

/-- A socket address (std::net::SocketAddr): the Ethernet `addresses`
field stores IP plus port endpoints. -/
structure SockAddr where
  ip : IpAddr
  port : Nat
deriving DecidableEq, Repr

structure Ethernet where
  name : String
  dhcp4 : Bool
  dhcp6 : Bool
  mtu : Option MTU
  ipv6_mtu : Option MTUV6
  accept_ra : Option Bool
  routes : List (String × Route)
  addresses : List SockAddr
  nameservers : Nameservers
  dynamic_addresses : List String
  system_state : List (String × Yaml)

/-- Rust `Ethernet::new` from src/models/ethernet.rs. -/
def Ethernet.new (name : String) : Ethernet :=
  ⟨name, false, false, none, none, none, [], [], Nameservers.new, [], []⟩

def Ethernet.set_dhcp4 (e : Ethernet) (set : Bool) : Ethernet :=
  { e with dhcp4 := set }

def Ethernet.set_dhcp6 (e : Ethernet) (set : Bool) : Ethernet :=
  { e with dhcp6 := set }

def Ethernet.set_accept_ra (e : Ethernet) (set : Option Bool) : Ethernet :=
  { e with accept_ra := set }

def Ethernet.set_mtu (e : Ethernet) (mtu : Option MTU) : Ethernet :=
  { e with mtu := mtu }

/-- Rust `Ethernet::add_route` from src/models/ethernet.rs:
`self.routes.insert(route.id(), route.clone())`. -/
def Ethernet.add_route (e : Ethernet) (route : Route) : Ethernet :=
  { e with routes := alInsert route.id route e.routes }

def Ethernet.delete_route (e : Ethernet) (route_id : String) : Ethernet × Bool :=
  match alGet route_id e.routes with
  | some _ => ({ e with routes := (e.routes.filter (fun p => p.1 ≠ route_id)) }, true)
  | none => (e, false)

inductive NetworkRenderer where
  | NetworkD
  | NetworkManager
deriving DecidableEq, Repr

structure Network where
  version : Nat
  renderer : NetworkRenderer
  ethernets : List (String × Ethernet)

/-- Rust `Network::new` from src/models/network.rs: version 2, NetworkManager
renderer, no ethernets. -/
def Network.new : Network := ⟨2, .NetworkManager, []⟩

/-- Rust `Network::add_ethernet`: insert keyed by the ethernet name. -/
def Network.add_ethernet (n : Network) (ethernet : Ethernet) : Network :=
  { n with ethernets := alInsert ethernet.name ethernet n.ethernets }

/-! ### misc.rs: the custom serde serializers and the IpAddrVisitor -/

/-- Rust `serialize_ip` from src/misc.rs: an unspecified address is written as
the literal string "default". -/
def serialize_ip (ip : IpAddr) : Yaml :=
  if ip.is_unspecified then .str "default" else .str ip.toDisplay

/-- Rust `serialize_ip_option` from src/misc.rs. -/
def serialize_ip_option : Option IpAddr → Yaml
  | some ip => if ip.is_unspecified then .str "default" else .str ip.toDisplay
  | none => .null

/-- Textual parse of an IPv4 address (std FromStr): four decimal octets,
each at most 255, no leading zeros. -/
def parseOctet (s : String) : Option Nat :=
  if s.length = 0 ∨ s.length > 3 then none
  else if s.length > 1 ∧ s.data.head? = some '0' then none
  else match s.toNat? with
    | some n => if n ≤ 255 then some n else none
    | none => none

def parseIpv4String (s : String) : Option Ipv4Addr :=
  match s.splitOn "." with
  | [a, b, c, d] =>
    match parseOctet a, parseOctet b, parseOctet c, parseOctet d with
    | some oa, some ob, some oc, some od => some ⟨oa, ob, oc, od⟩
    | _, _, _, _ => none
  | _ => none

def hexDigitVal (c : Char) : Option Nat :=
  if c.isDigit then some (c.toNat - 48)
  else if 'a' ≤ c ∧ c ≤ 'f' then some (c.toNat - 87)
  else if 'A' ≤ c ∧ c ≤ 'F' then some (c.toNat - 55)
  else none

/-- One hexadecimal IPv6 group, 1 to 4 digits. -/
def parseHexGroup (s : String) : Option Nat :=
  if s.length = 0 ∨ s.length > 4 then none
  else s.data.foldl (fun acc c =>
    match acc, hexDigitVal c with
    | some a, some d => some (a * 16 + d)
    | _, _ => none) (some 0)

/-- Parse a colon separated list of IPv6 groups, allowing an embedded
IPv4 dotted quad as the final group (two segments). -/
def parseGroups (pieces : List String) : Option (List Nat) :=
  match pieces with
  | [] => some []
  | [p] =>
    if p.contains '.' then
      match parseIpv4String p with
      | some q => some [q.o0 * 256 + q.o1, q.o2 * 256 + q.o3]
      | none => none
    else
      match parseHexGroup p with
      | some g => some [g]
      | none => none
  | p :: rest =>
    match parseHexGroup p, parseGroups rest with
    | some g, some gs => some (g :: gs)
    | _, _ => none

def segsToIpv6 (l : List Nat) : Option Ipv6Addr :=
  match l with
  | [a, b, c, d, e, f, g, h] => some ⟨a, b, c, d, e, f, g, h⟩
  | _ => none

/-- Textual parse of an IPv6 address (std FromStr): hex groups separated
by colons, at most one "::" filling with zero segments, optional embedded
IPv4 tail. -/
def parseIpv6String (s : String) : Option Ipv6Addr :=
  match s.splitOn "::" with
  | [whole] =>
    match parseGroups (whole.splitOn ":") with
    | some segs => if segs.length = 8 then segsToIpv6 segs else none
    | none => none
  | [l, r] =>
    let lPieces := if l = "" then [] else l.splitOn ":"
    let rPieces := if r = "" then [] else r.splitOn ":"
    match parseGroups lPieces, parseGroups rPieces with
    | some ls, some rs =>
      if ls.length + rs.length ≤ 7 then
        segsToIpv6 (ls ++ List.replicate (8 - ls.length - rs.length) 0 ++ rs)
      else none
    | _, _ => none
  | _ => none

/-- Rust `value.parse::<IpAddr>()`: IPv4 first, then IPv6. -/
def parseIpAddrString (s : String) : Option IpAddr :=
  match parseIpv4String s with
  | some a => some (.v4 a)
  | none =>
    match parseIpv6String s with
    | some a => some (.v6 a)
    | none => none

/-- Rust `IpAddrVisitor::visit_str` from src/misc.rs: the literal "default"
becomes the IPv4 unspecified address, anything else is parsed as an IP
address; a parse failure is a serde error (`none`). -/
def visit_str (value : String) : Option (Option IpAddr) :=
  if value = "default" then some (some (IpAddr.v4 ⟨0, 0, 0, 0⟩))
  else
    match parseIpAddrString value with
    | some ip => some (some ip)
    | none => none

/-- Rust `deserialize_ip` from src/misc.rs: `deserialize_str` feeds a string
value to `visit_str` and unwraps the resulting Option; a non-string value
is a serde invalid-type error. -/
def deserialize_ip_value (v : Yaml) : Option IpAddr :=
  match v with
  | .str s =>
    match visit_str s with
    | some (some ip) => some ip
    | some none => none
    | none => none
  | _ => none

/-- Rust `deserialize_ip_option` from src/misc.rs: `deserialize_option` sends
Null to `visit_none` and any present value to `visit_some`; IpAddrVisitor
does not implement `visit_some`, so the serde default implementation
raises an invalid-type error for every present value. -/
def deserialize_ip_option_value (v : Yaml) : Option (Option IpAddr) :=
  match v with
  | .null => some none
  | _ => none

/-! ### serde serialization of the model structs (declaration order,
kebab-case keys, skip attributes as in the sources) -/

def serializeRoute (r : Route) : Yaml :=
  .map ((match r.fromAddr with
          | none => []
          | some _ => [("from", serialize_ip_option r.fromAddr)]) ++
        [("to", serialize_ip r.toAddr)] ++
        (match r.via with
          | none => []
          | some _ => [("via", serialize_ip_option r.via)]))

def sockAddrToString (a : SockAddr) : String :=
  match a.ip with
  | .v4 q => q.toDisplay ++ ":" ++ toString a.port
  | .v6 q => "[" ++ q.toDisplay ++ "]:" ++ toString a.port

/-- Nameservers serialization: both set fields are skipped when empty. -/
def serializeNameservers (ns : Nameservers) : Yaml :=
  .map ((if ns.search.isEmpty then [] else
          [("search", Yaml.seq (ns.search.map Yaml.str))]) ++
        (if ns.addresses.isEmpty then [] else
          [("addresses", Yaml.seq (ns.addresses.map (fun ip => Yaml.str ip.toDisplay)))]))

/-- Ethernet serialization: `name`, `dynamic_addresses` and `system_state`
are never serialized; `routes` and `addresses` are skipped when empty;
plain Option fields serialize as null when absent; keys are kebab-case. -/
def serializeEthernet (e : Ethernet) : Yaml :=
  .map ([("dhcp4", Yaml.bool e.dhcp4),
         ("dhcp6", Yaml.bool e.dhcp6),
         ("mtu", match e.mtu with
                  | some m => Yaml.nat m.value
                  | none => Yaml.null),
         ("ipv6-mtu", match e.ipv6_mtu with
                  | some m => Yaml.nat m.value
                  | none => Yaml.null),
         ("accept-ra", match e.accept_ra with
                  | some b => Yaml.bool b
                  | none => Yaml.null)] ++
        (if e.routes.isEmpty then [] else
          [("routes", Yaml.map (e.routes.map (fun p => (p.1, serializeRoute p.2))))]) ++
        (if e.addresses.isEmpty then [] else
          [("addresses", Yaml.seq (e.addresses.map (fun a => Yaml.str (sockAddrToString a))))]) ++
        [("nameservers", serializeNameservers e.nameservers)])

def serializeRenderer : NetworkRenderer → Yaml
  | .NetworkD => .str "networkd"
  | .NetworkManager => .str "NetworkManager"

/-- Serialization of Network: the three fields at top level.  Note that
`save_config` writes exactly this document — the commented-out wrapper
code in src/netplan.rs means no enclosing `network` key is produced. -/
def serializeNetwork (n : Network) : Yaml :=
  .map [("version", Yaml.nat n.version),
        ("renderer", serializeRenderer n.renderer),
        ("ethernets", Yaml.map (n.ethernets.map (fun p => (p.1, serializeEthernet p.2))))]

/-! ### serde deserialization of the model structs -/

def parseRenderer (y : Yaml) : Option NetworkRenderer :=
  match y with
  | .str s =>
    if s = "networkd" then some .NetworkD
    else if s = "NetworkManager" then some .NetworkManager
    else none
  | _ => none

/-- Derived Deserialize for the BoundedU32 newtype performs no range
validation: any u32 is accepted. -/
def parseBoundedU32 (MIN MAX : Nat) (y : Yaml) : Option (BoundedU32 MIN MAX) :=
  match y with
  | .nat n => if n < 2 ^ 32 then some ⟨n⟩ else none
  | _ => none

/-- Route deserialization.  All three fields use `deserialize_with`
functions, which makes each of them required even though two are Options
(serde does not default an Option field that has `deserialize_with`). -/
def parseRoute (y : Yaml) : Option Route :=
  match y with
  | .map entries =>
    match alGet "from" entries, alGet "to" entries, alGet "via" entries with
    | some fv, some tv, some vv =>
      match deserialize_ip_option_value fv, deserialize_ip_value tv,
            deserialize_ip_option_value vv with
      | some fromAddr, some toAddr, some via => some ⟨fromAddr, toAddr, via⟩
      | _, _, _ => none
    | _, _, _ => none
  | _ => none

/-- A plain Option field (no `deserialize_with`): missing or null means
None, otherwise the inner parser runs. -/
def parseOptField {α : Type} (entries : List (String × Yaml)) (key : String)
    (p : Yaml → Option α) : Option (Option α) :=
  match alGet key entries with
  | none => some none
  | some .null => some none
  | some v => (p v).map some

def parsePort (s : String) : Option Nat :=
  if s.length = 0 ∨ (s.length > 1 ∧ s.data.head? = some '0') then none
  else match s.toNat? with
    | some n => if n ≤ 65535 then some n else none
    | none => none

/-- Textual parse of a socket address: `v4:port` or `[v6]:port`. -/
def parseSockAddrString (s : String) : Option SockAddr :=
  match s.revPosOf ':' with
  | none => none
  | some i =>
    let ipPart := s.extract 0 i
    let portPart := s.extract (s.next i) s.endPos
    match parsePort portPart with
    | none => none
    | some port =>
      if ipPart.startsWith "[" ∧ ipPart.endsWith "]" then
        match parseIpv6String (ipPart.drop 1 |>.dropRight 1) with
        | some a => some ⟨.v6 a, port⟩
        | none => none
      else
        match parseIpv4String ipPart with
        | some a => some ⟨.v4 a, port⟩
        | none => none

def parseStringList (y : Yaml) : Option (List String) :=
  match y with
  | .seq items => items.mapM Yaml.as_str
  | _ => none

/-- Nameservers deserialization: both fields are required (their
`skip_serializing_if` attribute has no default counterpart). -/
def parseNameservers (y : Yaml) : Option Nameservers :=
  match y with
  | .map entries =>
    match alGet "search" entries, alGet "addresses" entries with
    | some sv, some av =>
      match parseStringList sv with
      | none => none
      | some search =>
        match av with
        | .seq items =>
          match items.mapM (fun it =>
            match it.as_str with
            | some s => parseIpAddrString s
            | none => none) with
          | some addresses => some ⟨search, addresses⟩
          | none => none
        | _ => none
    | _, _ => none
  | _ => none

/-- Ethernet deserialization: every non-Option field is required,
including `routes`, `addresses`, `nameservers`, `dynamic-addresses` and
`system-state` (they carry skip attributes for serialization only, no
serde default). -/
def parseEthernet (y : Yaml) : Option Ethernet :=
  match y with
  | .map entries =>
    match alGet "name" entries, alGet "dhcp4" entries, alGet "dhcp6" entries with
    | some nv, some d4v, some d6v =>
      match nv.as_str, d4v.as_bool, d6v.as_bool with
      | some name, some dhcp4, some dhcp6 =>
        match parseOptField entries "mtu" (parseBoundedU32 68 64000),
              parseOptField entries "ipv6-mtu" (parseBoundedU32 1280 64000),
              parseOptField entries "accept-ra" Yaml.as_bool with
        | some mtu, some ipv6_mtu, some accept_ra =>
          match alGet "routes" entries, alGet "addresses" entries,
                alGet "nameservers" entries with
          | some rv, some av, some nsv =>
            match rv.as_mapping with
            | none => none
            | some routeEntries =>
              match routeEntries.mapM (fun p =>
                match parseRoute p.2 with
                | some r => some (p.1, r)
                | none => none) with
              | none => none
              | some routes =>
                match av with
                | .seq items =>
                  match items.mapM (fun it =>
                    match it.as_str with
                    | some s => parseSockAddrString s
                    | none => none) with
                  | none => none
                  | some addresses =>
                    match parseNameservers nsv with
                    | none => none
                    | some nameservers =>
                      match alGet "dynamic-addresses" entries,
                            alGet "system-state" entries with
                      | some dav, some ssv =>
                        match parseStringList dav, ssv.as_mapping with
                        | some dynamic_addresses, some system_state =>
                          some ⟨name, dhcp4, dhcp6, mtu, ipv6_mtu, accept_ra,
                                routes, addresses, nameservers,
                                dynamic_addresses, system_state⟩
                        | _, _ => none
                      | _, _ => none
                | _ => none
          | _, _, _ => none
        | _, _, _ => none
      | _, _, _ => none
    | _, _, _ => none
  | _ => none

/-- Network deserialization (derived): version, renderer and the mapping
of ethernets are all required. -/
def parseNetwork (y : Yaml) : Option Network :=
  match y with
  | .map entries =>
    match alGet "version" entries, alGet "renderer" entries,
          alGet "ethernets" entries with
    | some vv, some rv, some ev =>
      match vv.as_nat, parseRenderer rv, ev.as_mapping with
      | some version, some renderer, some ethMap =>
        match ethMap.mapM (fun p =>
          match parseEthernet p.2 with
          | some e => some (p.1, e)
          | none => none) with
        | some ethernets => some ⟨version, renderer, ethernets⟩
        | none => none
      | _, _, _ => none
    | _, _, _ => none
  | _ => none

/-! ### netplan.rs: diff parsing and the DHCP classification helpers -/

/-- A system_state fragment: one interface entry of the renderer diff. -/
abbrev Frag := List (String × Yaml)

/-- The result of `get_diff`: interface name to system_state fragment. -/
abbrev Diff := List (String × Frag)

/-- Worker for `Netplan::get_diff`: iterate the `interfaces` mapping of
the status document; an entry whose value is not a mapping panics; an
entry with a `system_state` key is inserted (its value must itself be a
mapping, else panic); entries without the key are skipped. -/
def getDiffEntries : List (String × Yaml) → Option Diff
  | [] => some []
  | (interface, interface_data) :: rest =>
    match interface_data.as_mapping with
    | none => none
    | some iface_date =>
      match getDiffEntries rest with
      | none => none
      | some tail =>
        match alGet "system_state" iface_date with
        | none => some tail
        | some ss =>
          match ss.as_mapping with
          | none => none
          | some ssm => some (alInsert interface ssm tail)

/-- Rust `Netplan::get_diff` from src/netplan.rs, applied to the YAML document
the renderer status command printed; `none` models the panics on a
malformed document (missing `interfaces` key, non-mapping values). -/
def get_diff (statusDoc : Yaml) : Option Diff :=
  match statusDoc.as_mapping with
  | none => none
  | some yaml_output =>
    match alGet "interfaces" yaml_output with
    | none => none
    | some ifacesVal =>
      match ifacesVal.as_mapping with
      | none => none
      | some managed_interfaces => getDiffEntries managed_interfaces

/-- Per-fragment check of `interfaces_with_misssing_dhcp_address`: the
dhcp4 flag is looked up first and, when the key is present, decides alone
(the dhcp6 flag is only consulted when the dhcp4 key is absent); a flag
value that is not a bool panics (`none`). -/
def fragMissingFlag (frag : Frag) : Option Bool :=
  match alGet "missing_dhcp4_address" frag with
  | some missing_dhcp4 => missing_dhcp4.as_bool
  | none =>
    match alGet "missing_dhcp6_address" frag with
    | some missing_dhcp6 => missing_dhcp6.as_bool
    | none => some false

/-- Rust `Netplan::interfaces_with_misssing_dhcp_address` (source spelling)
from src/netplan.rs. -/
def interfaces_with_misssing_dhcp_address : Diff → Option (List String)
  | [] => some []
  | (eth, frag) :: rest =>
    match fragMissingFlag frag with
    | none => none
    | some keep =>
      match interfaces_with_misssing_dhcp_address rest with
      | none => none
      | some tail => some (if keep then eth :: tail else tail)

/-- Rust `Netplan::interfaces_expecting_dhcp_address` from src/netplan.rs:
dhcp4 enabled, or dhcp6 enabled with accept_ra present and true. -/
def interfaces_expecting_dhcp_address (network : Network) : List String :=
  network.ethernets.foldr (fun p acc =>
    if p.2.dhcp4 || (p.2.dhcp6 &&
        (match p.2.accept_ra with
          | some b => b
          | none => false)) then p.1 :: acc else acc) []

/-! ### netplan.rs: the config store over a small filesystem model -/

inductive IoErr where
  | notFound
  | writeError
deriving DecidableEq, Repr

/-- The filesystem slice the store touches.  File contents are kept as
parsed YAML documents (only YAML ever passes through the files);
`writeFails` injects an I/O failure of `fs::write` (for instance a
read-only or full filesystem). -/
structure Fs where
  configFile : Option Yaml
  backupFile : Option Yaml
  sysClassNet : List String
  writeFails : Bool

/-- Rust `Netplan::backup_config`: copy the canonical file to the backup path;
`fs::copy` fails when the source file does not exist. -/
def backup_config (fs : Fs) : Except IoErr Fs :=
  match fs.configFile with
  | none => .error .notFound
  | some doc => .ok { fs with backupFile := some doc }

/-- Rust `Netplan::save_config`: backup first, then serialize and overwrite
the canonical path.  Returns the io::Result together with the filesystem
state (on failure the state reflects how far the function got). -/
def save_config (fs : Fs) (network : Network) : Except IoErr Unit × Fs :=
  match backup_config fs with
  | .error e => (.error e, fs)
  | .ok fs1 =>
    if fs1.writeFails then (.error .writeError, fs1)
    else (.ok (), { fs1 with configFile := some (serializeNetwork network) })

/-- Route sequence to id-keyed mapping rewrite inside `load_config`: each
sequence element is decoded as a Route (a decode failure panics via
`.expect`) and inserted under its id. -/
def adaptRouteSeq (routes_seq : List Yaml) : Option (List (String × Yaml)) :=
  routes_seq.foldlM (fun acc route =>
    match parseRoute route with
    | some parsed_route => some (alInsert parsed_route.id route acc)
    | none => none) []

/-- Per-ethernet adaptation inside `load_config`: re-inject the name,
rewrite a `routes` sequence into an id-keyed mapping, and copy a
non-empty `system_state` fragment from the diff (the code looks the
fragment up under the key `system_state` inside the fragment itself). -/
def adaptEthernet (ethernet_name : String) (v : Yaml) (diff : Diff) : Option Yaml :=
  match v with
  | .map ethernet_map =>
    let m1 := alInsert "name" (.str ethernet_name) ethernet_map
    match
      (match alGet "routes" m1 with
        | some (.seq routes_seq) =>
          match adaptRouteSeq routes_seq with
          | some new_routes => some (alInsert "routes" (.map new_routes) m1)
          | none => none
        | _ => some m1) with
    | none => none
    | some m2 =>
      match alGet ethernet_name diff with
      | some interface_diff =>
        match alGet "system_state" interface_diff with
        | some ss =>
          match ss with
          | .map ssm =>
            if ssm.isEmpty then some (.map m2)
            else some (.map (alInsert "system_state" ss m2))
          | _ => some (.map m2)
        | none => some (.map m2)
      | none => some (.map m2)
  | _ => some v

/-- The whole-document adaptation of `load_config`: applied in place to
the value under the top-level `network` key, when present. -/
def adaptConfig (doc : Yaml) (diff : Diff) : Option Yaml :=
  match doc with
  | .map top =>
    match alGet "network" top with
    | some (.map networkMap) =>
      match alGet "ethernets" networkMap with
      | some (.map ethernets_map) =>
        match ethernets_map.mapM (fun p =>
          match adaptEthernet p.1 p.2 diff with
          | some v => some (p.1, v)
          | none => none) with
        | some newEntries =>
          some (.map (alInsert "network"
            (.map (alInsert "ethernets" (.map newEntries) networkMap)) top))
        | none => none
      | _ => some doc
    | _ => some doc
  | _ => some doc

/-- The present-file branch of `load_config`: adapt the raw document and
decode the value under `network` (Null when the key is missing); `none`
models the `.expect` panics on adaptation or decode failure. -/
def loadConfigFromDoc (doc : Yaml) (diff : Diff) : Option Network :=
  match adaptConfig doc diff with
  | none => none
  | some adapted => parseNetwork (yamlIndex adapted "network")

inductive LoadResult where
  | ok : Network → LoadResult
  | ioError : LoadResult
  | panicked : LoadResult

/-- Rust `Netplan::load_config` from src/netplan.rs, given the diff obtained
from the renderer (the status and diff commands are assumed to have
succeeded; their output affects neither the decoded intent fields nor the
control flow modelled here).  When the canonical file is absent the
default Network is bootstrapped — seeded with eth0 when /sys/class/net
lists it — and persisted through `save_config`, whose io::Result the `?`
operator propagates. -/
def load_config (fs : Fs) (diff : Diff) : LoadResult × Fs :=
  match fs.configFile with
  | none =>
    let base_interface : Option Ethernet :=
      if fs.sysClassNet.contains "eth0" then
        some ((Ethernet.new "eth0").set_dhcp4 true)
      else none
    let result :=
      match base_interface with
      | some iface => Network.new.add_ethernet iface
      | none => Network.new
    match save_config fs result with
    | (.error _, fs1) => (.ioError, fs1)
    | (.ok _, fs1) => (.ok result, fs1)
  | some doc =>
    match loadConfigFromDoc doc diff with
    | some network => (.ok network, fs)
    | none => (.panicked, fs)

/-! ### netplan.rs: the reconciliation loop -/

inductive LoopExit where
  | converged
  | fatalUnchecked
  | diffError
  | panicked
  | softAccept
  | exhausted
deriving DecidableEq, Repr

inductive IterAction where
  | exitWith : LoopExit → IterAction
  | retry : IterAction
deriving DecidableEq, Repr

/-- One iteration of the polling loop in `apply_with_diff`, given the
result of the in-loop `load_config` (constant across iterations: the
persisted file does not change while the loop runs) and the current
`get_diff` result.  Outcomes: converged on empty diff; fatal when the
diff has no missing-DHCP flag; retry (sleep 1s) when a flagged interface
is also DHCP-expected; soft accept otherwise; a flag value that is not a
bool or a failed in-loop load panics. -/
def loopIter (loadRes : LoadResult) (d : Except Unit Diff) : IterAction :=
  match d with
  | .error _ => .exitWith .diffError
  | .ok diff =>
    match diff with
    | [] => .exitWith .converged
    | _ :: _ =>
      match interfaces_with_misssing_dhcp_address diff with
      | none => .exitWith .panicked
      | some ifaces_without_dhcp_address =>
        match ifaces_without_dhcp_address with
        | [] => .exitWith .fatalUnchecked
        | _ :: _ =>
          match loadRes with
          | .ok network =>
            let ifaces_expecting := interfaces_expecting_dhcp_address network
            let affected_ifaces :=
              ifaces_without_dhcp_address.filter (fun iface => ifaces_expecting.contains iface)
            match affected_ifaces with
            | _ :: _ => .retry
            | [] => .exitWith .softAccept
          | _ => .exitWith .panicked

/-- The bounded polling loop: at most `fuel` iterations (15 in the code);
returns the exit reason together with the number of `get_diff` polls
performed.  `diffs i` is the result of the poll in iteration `i`. -/
def applyLoop (loadRes : LoadResult) (diffs : Nat → Except Unit Diff) :
    Nat → Nat → LoopExit × Nat
  | _, 0 => (.exhausted, 0)
  | i, fuel + 1 =>
    match loopIter loadRes (diffs i) with
    | .exitWith e => (e, 1)
    | .retry =>
      let r := applyLoop loadRes diffs (i + 1) fuel
      (r.1, r.2 + 1)

def SECONDS_TO_WAIT : Nat := 15

inductive ApplyError where
  | applyFailed
  | uncheckedDiff
  | diffFailed
  | panicked
  | loadFailed
deriving DecidableEq, Repr

/-- Rust `Netplan::apply_with_diff` from src/netplan.rs.  `applyOk` is the
outcome of the initial renderer apply; `diffs` the successive `get_diff`
results; `finalDiff` the diff seen by the final `load_config`.  After the
loop the exhausted, converged and soft-accept exits all fall through to
the final reload (the `there_are_differences` flag only gates a warning
log). -/
def apply_with_diff (fs : Fs) (applyOk : Bool) (diffs : Nat → Except Unit Diff)
    (finalDiff : Diff) : Except ApplyError Network :=
  if !applyOk then .error .applyFailed
  else
    let loopLoad := (load_config fs []).1
    match (applyLoop loopLoad diffs 0 SECONDS_TO_WAIT).1 with
    | .fatalUnchecked => .error .uncheckedDiff
    | .diffError => .error .diffFailed
    | .panicked => .error .panicked
    | _ =>
      match (load_config fs finalDiff).1 with
      | .ok network => .ok network
      | .ioError => .error .loadFailed
      | .panicked => .error .panicked

/-- Rust `Netplan::save_and_apply` from src/netplan.rs.  The io::Result of
`self.save_config(network)` is discarded (the statement drops it on the
floor); only the filesystem state it reached carries over into
`apply_with_diff`. -/
def save_and_apply (fs : Fs) (network : Network) (applyOk : Bool)
    (diffs : Nat → Except Unit Diff) (finalDiff : Diff) : Except ApplyError Network :=
  let saved := save_config fs network
  apply_with_diff saved.2 applyOk diffs finalDiff

/-! ### Helper lemmas about association lists -/

theorem alGet_alInsert_self {α : Type} (k : String) (v : α) (l : List (String × α)) :
    alGet k (alInsert k v l) = some v := by
  induction l with
  | nil => simp [alInsert, alGet]
  | cons p rest ih =>
    by_cases h : p.1 = k
    · simp [alInsert, alGet, h]
    · simp [alInsert, alGet, h, ih]

theorem alInsert_alInsert_self {α : Type} (k : String) (v : α) (l : List (String × α)) :
    alInsert k v (alInsert k v l) = alInsert k v l := by
  induction l with
  | nil => simp [alInsert]
  | cons p rest ih =>
    by_cases h : p.1 = k
    · simp [alInsert, h]
    · simp [alInsert, h, ih]

theorem alInsert_keys {α : Type} (k : String) (v : α) (l : List (String × α)) :
    (alInsert k v l).map Prod.fst =
      if k ∈ l.map Prod.fst then l.map Prod.fst else l.map Prod.fst ++ [k] := by
  induction l with
  | nil => simp [alInsert]
  | cons p rest ih =>
    by_cases h : p.1 = k
    · simp [alInsert, h]
    · by_cases hm : k ∈ rest.map Prod.fst <;>
        simp [alInsert, h, ih, hm, Ne.symm h]

theorem alInsert_of_not_mem_keys {α : Type} (k : String) (v : α)
    (l : List (String × α)) (h : k ∉ l.map Prod.fst) :
    alInsert k v l = l ++ [(k, v)] := by
  induction l with
  | nil => simp [alInsert]
  | cons p rest ih =>
    simp only [List.map_cons, List.mem_cons] at h
    push_neg at h
    simp [alInsert, Ne.symm h.1, ih h.2]

theorem countP_key_eq_zero {α : Type} (k : String) (l : List (String × α))
    (h : k ∉ l.map Prod.fst) : l.countP (fun p => p.1 == k) = 0 := by
  induction l with
  | nil => simp
  | cons p rest ih =>
    simp only [List.map_cons, List.mem_cons] at h
    push_neg at h
    rw [List.countP_cons]
    simp [ih h.2, Ne.symm h.1]

theorem countP_alInsert_eq_one {α : Type} (k : String) (v : α)
    (l : List (String × α)) (h : (l.map Prod.fst).Nodup) :
    (alInsert k v l).countP (fun p => p.1 == k) = 1 := by
  induction l with
  | nil => simp [alInsert]
  | cons p rest ih =>
    simp only [List.map_cons, List.nodup_cons] at h
    by_cases hk : p.1 = k
    · subst hk
      rw [show alInsert p.1 v (p :: rest) = (p.1, v) :: rest from by simp [alInsert]]
      rw [List.countP_cons]
      simp [countP_key_eq_zero p.1 rest h.1]
    · rw [show alInsert k v (p :: rest) = p :: alInsert k v rest from by simp [alInsert, hk]]
      rw [List.countP_cons]
      simp [hk, ih h.2]

theorem alInsert_keys_nodup {α : Type} (k : String) (v : α)
    (l : List (String × α)) (h : (l.map Prod.fst).Nodup) :
    ((alInsert k v l).map Prod.fst).Nodup := by
  rw [alInsert_keys]
  by_cases hm : k ∈ l.map Prod.fst
  · simp [hm, h]
  · rw [if_neg hm]
    exact List.Nodup.append h (List.nodup_singleton k)
      (by intro a ha hb
          simp only [List.mem_singleton] at hb
          exact hm (hb ▸ ha))

/-! ### Claim C8 -/

/-- C8: `BoundedU32::<MIN, MAX>::new(v)` returns Some exactly when
MIN ≤ v ≤ MAX; the MTU alias uses the bounds 68 and 64000 and the IPv6
MTU alias the bounds 1280 and 64000, so new(70) succeeds for MTU while
new(30) fails. -/
theorem C8_boundedU32_new_iff (MIN MAX value : Nat) (_hu32 : value < 2 ^ 32) :
    ((BoundedU32.new MIN MAX value).isSome ↔ (MIN ≤ value ∧ value ≤ MAX))
    ∧ MTU = BoundedU32 68 64000
    ∧ MTUV6 = BoundedU32 1280 64000
    ∧ (BoundedU32.new 68 64000 70).isSome = true
    ∧ (BoundedU32.new 68 64000 30).isSome = false := by
  refine ⟨?_, rfl, rfl, by decide, by decide⟩
  unfold BoundedU32.new
  by_cases h : MIN ≤ value ∧ value ≤ MAX <;> simp [h]

theorem C8_boundedU32_new_iff_witness :
    (BoundedU32.new 68 64000 70).isSome ↔ (68 ≤ 70 ∧ 70 ≤ 64000) :=
  (C8_boundedU32_new_iff 68 64000 70 (by decide)).1

/-! ### Claim C7 -/

/-- C7: Route identity is a pure function of the triple, matching the
specified format (sentinels "from" and "via", "default" for an
unspecified destination), and `add_route`, which keys the routes map by
that id, is idempotent: adding the same route twice leaves exactly one
entry for the id, the later addition overwriting the earlier. -/
theorem C7_route_id_pure_add_route_idempotent (r : Route) (e : Ethernet)
    (hkeys : (e.routes.map Prod.fst).Nodup) :
    Route.id r = routeIdSpec r
    ∧ (∀ r2 : Route, r2.fromAddr = r.fromAddr → r2.toAddr = r.toAddr →
        r2.via = r.via → r2.id = r.id)
    ∧ (e.add_route r).add_route r = e.add_route r
    ∧ alGet r.id ((e.add_route r).add_route r).routes = some r
    ∧ ((e.add_route r).add_route r).routes.countP (fun p => p.1 == r.id) = 1 := by
  refine ⟨rfl, ?_, ?_, ?_, ?_⟩
  · intro r2 h1 h2 h3
    cases r2; cases r
    simp_all
  · show ({ e with routes := alInsert r.id r (alInsert r.id r e.routes) } : Ethernet) = _
    rw [alInsert_alInsert_self]
    rfl
  · show alGet r.id (alInsert r.id r (alInsert r.id r e.routes)) = some r
    exact alGet_alInsert_self _ _ _
  · show (alInsert r.id r (alInsert r.id r e.routes)).countP _ = 1
    exact countP_alInsert_eq_one _ _ _ (alInsert_keys_nodup _ _ _ hkeys)

theorem C7_route_id_pure_add_route_idempotent_witness :
    (((Ethernet.new "eth0").add_route ⟨none, .v4 ⟨10, 0, 0, 1⟩, none⟩).add_route
        ⟨none, .v4 ⟨10, 0, 0, 1⟩, none⟩).routes.countP
      (fun p => p.1 == Route.id ⟨none, .v4 ⟨10, 0, 0, 1⟩, none⟩) = 1 :=
  (C7_route_id_pure_add_route_idempotent ⟨none, .v4 ⟨10, 0, 0, 1⟩, none⟩
    (Ethernet.new "eth0") (by simp [Ethernet.new])).2.2.2.2

/-! ### Claim C1 -/

/-- A well-formed persisted document: the Network fields wrapped under
the top-level `network` key, with no configured ethernets. -/
def wrappedEmptyConfigDoc : Yaml :=
  .map [("network", .map [("version", .nat 2), ("renderer", .str "NetworkManager"),
    ("ethernets", .map [])])]

/-- C1: `save_and_apply` drops the io::Result of `save_config` on the
floor.  Concrete run: the canonical file holds a valid wrapped document,
the write of the new config fails (for instance the file is immutable
while the backup copy succeeds), the renderer apply succeeds and the diff
is empty.  `save_config` reports a write error, yet `save_and_apply`
returns Ok with the previous Network — which does not contain the eth0
mutation — instead of an explicit error. -/
theorem C1_save_and_apply_swallows_save_error :
    (save_config ⟨some wrappedEmptyConfigDoc, none, [], true⟩
        (Network.new.add_ethernet ((Ethernet.new "eth0").set_dhcp4 true))).1
      = .error .writeError
    ∧ save_and_apply ⟨some wrappedEmptyConfigDoc, none, [], true⟩
        (Network.new.add_ethernet ((Ethernet.new "eth0").set_dhcp4 true))
        true (fun _ => .ok []) [] = .ok Network.new
    ∧ (alGet "eth0" (Network.new.add_ethernet
        ((Ethernet.new "eth0").set_dhcp4 true)).ethernets).isSome = true
    ∧ alGet "eth0" Network.new.ethernets = none :=
  ⟨rfl, rfl, rfl, rfl⟩

/-! ### Claim C5 -/

/-- C5: `save_config` serializes the Network fields at the top level —
the `network` wrapper the spec requires (and that the commented-out code
in src/netplan.rs would have added) is absent — and `load_config` cannot
read such a document back: loading immediately after saving panics on the
missing `network` key instead of returning the saved Network. -/
theorem C5_save_writes_unwrapped_document :
    (∃ top, serializeNetwork Network.new = .map top ∧ alGet "network" top = none)
    ∧ loadConfigFromDoc (serializeNetwork Network.new) [] = none :=
  ⟨⟨_, rfl, rfl⟩, rfl⟩

/-! ### Claim C6 -/

/-- C6: with no persisted file and a physical eth0 present, the bootstrap
branch of `load_config` calls `save_config`, whose first step
`backup_config` copies the canonical file — which does not exist — so the
copy fails and `load_config` propagates an I/O error instead of returning
the bootstrapped default Network. -/
theorem C6_bootstrap_fails_on_backup :
    backup_config ⟨none, none, ["eth0"], false⟩ = .error .notFound
    ∧ (load_config ⟨none, none, ["eth0"], false⟩ []).1 = .ioError :=
  ⟨rfl, rfl⟩

/-! ### Claim C4 -/

/-- Membership characterization of the missing-DHCP collection: an
interface is collected exactly when its fragment passes
`fragMissingFlag` with true. -/
theorem iwmda_mem_iff (data : Diff) (out : List String)
    (h : interfaces_with_misssing_dhcp_address data = some out) (name : String) :
    name ∈ out ↔ ∃ frag, (name, frag) ∈ data ∧ fragMissingFlag frag = some true := by
  induction data generalizing out with
  | nil =>
    simp only [interfaces_with_misssing_dhcp_address, Option.some.injEq] at h
    subst h
    simp
  | cons p rest ih =>
    obtain ⟨eth, frag⟩ := p
    simp only [interfaces_with_misssing_dhcp_address] at h
    cases hf : fragMissingFlag frag with
    | none => rw [hf] at h; exact absurd h (by simp)
    | some keep =>
      rw [hf] at h
      cases hr : interfaces_with_misssing_dhcp_address rest with
      | none => rw [hr] at h; exact absurd h (by simp)
      | some tail =>
        rw [hr] at h
        simp only [Option.some.injEq] at h
        subst h
        have hrest := ih tail hr
        cases keep with
        | true =>
          rw [if_pos rfl]
          constructor
          · intro hmem
            rcases List.mem_cons.mp hmem with h1 | h1
            · subst h1
              exact ⟨frag, List.mem_cons_self _ _, hf⟩
            · obtain ⟨frag', hm, hfl⟩ := hrest.mp h1
              exact ⟨frag', List.mem_cons_of_mem _ hm, hfl⟩
          · rintro ⟨frag', hmem, hfl⟩
            rcases List.mem_cons.mp hmem with h1 | h1
            · have heq : name = eth ∧ frag' = frag := by
                simpa [Prod.ext_iff] using h1
              exact List.mem_cons.mpr (Or.inl heq.1)
            · exact List.mem_cons.mpr (Or.inr (hrest.mpr ⟨frag', h1, hfl⟩))
        | false =>
          rw [if_neg (by simp), hrest]
          constructor
          · rintro ⟨frag', h1, hfl⟩
            exact ⟨frag', List.mem_cons_of_mem _ h1, hfl⟩
          · rintro ⟨frag', hmem, hfl⟩
            rcases List.mem_cons.mp hmem with h1 | h1
            · have heq : name = eth ∧ frag' = frag := by
                simpa [Prod.ext_iff] using h1
              rw [heq.2, hf] at hfl
              simp at hfl
            · exact ⟨frag', h1, hfl⟩

/-- C4 counterexample: a fragment carrying missing_dhcp4_address false
together with missing_dhcp6_address true is NOT collected — the dhcp4 key
being present, the else-if never consults the dhcp6 flag — contradicting
the claim that such an interface is collected. -/
theorem C4_missing_dhcp_collection_counterexample :
    ∃ out, interfaces_with_misssing_dhcp_address
        [("eth0", [("missing_dhcp4_address", Yaml.bool false),
                   ("missing_dhcp6_address", Yaml.bool true)])] = some out
      ∧ "eth0" ∉ out
      ∧ alGet "missing_dhcp6_address"
          [("missing_dhcp4_address", Yaml.bool false),
           ("missing_dhcp6_address", Yaml.bool true)] = some (Yaml.bool true) :=
  ⟨[], rfl, by simp, rfl⟩

/-- C4 (amended): the collection step returns exactly the interfaces
whose fragment either has missing_dhcp4_address with a true value, or has
no missing_dhcp4_address key at all and has missing_dhcp6_address with a
true value; a fragment whose missing_dhcp4_address is present and false
is never collected, whatever its dhcp6 flag says. -/
theorem C4_missing_dhcp_collection_amended (data : Diff) (out : List String)
    (h : interfaces_with_misssing_dhcp_address data = some out) :
    (∀ name, name ∈ out ↔ ∃ frag, (name, frag) ∈ data ∧
      ((∃ v, alGet "missing_dhcp4_address" frag = some v ∧ v.as_bool = some true)
        ∨ (alGet "missing_dhcp4_address" frag = none
            ∧ ∃ v, alGet "missing_dhcp6_address" frag = some v ∧ v.as_bool = some true))) := by
  intro name
  rw [iwmda_mem_iff data out h name]
  refine exists_congr fun frag => and_congr_right fun _ => ?_
  unfold fragMissingFlag
  cases h4 : alGet "missing_dhcp4_address" frag with
  | some v4 =>
    cases hb : v4.as_bool with
    | none => simp [hb]
    | some b => cases b <;> simp [hb]
  | none =>
    cases h6 : alGet "missing_dhcp6_address" frag with
    | some v6 =>
      cases hb : v6.as_bool with
      | none => simp [hb]
      | some b => cases b <;> simp [hb]
    | none => simp

theorem C4_missing_dhcp_collection_amended_witness :
    ∃ frag, ("eth0", frag) ∈
        ([("eth0", [("missing_dhcp4_address", Yaml.bool true)])] : Diff) ∧
      ((∃ v, alGet "missing_dhcp4_address" frag = some v ∧ v.as_bool = some true)
        ∨ (alGet "missing_dhcp4_address" frag = none
            ∧ ∃ v, alGet "missing_dhcp6_address" frag = some v ∧ v.as_bool = some true)) :=
  (C4_missing_dhcp_collection_amended
      [("eth0", [("missing_dhcp4_address", Yaml.bool true)])] ["eth0"] rfl "eth0").mp
    (by simp)

/-! ### Claim C10 -/

/-- C10 counterexample: deserializing "default" through the optional
route fields does not yield any address at all: `deserialize_ip_option`
routes every present value through the serde default `visit_some`, which
IpAddrVisitor does not implement, so it is an error; consequently a
serialized route whose `from` and `via` held the IPv6 unspecified address
(written as "default") fails to deserialize rather than coming back with
a different id. -/
theorem C10_default_deserialization_counterexample :
    deserialize_ip_option_value (Yaml.str "default") = none
    ∧ serialize_ip_option (some ipv6Unspecified) = Yaml.str "default"
    ∧ parseRoute (serializeRoute
        ⟨some ipv6Unspecified, .v4 ⟨10, 0, 0, 1⟩, some ipv6Unspecified⟩) = none :=
  ⟨rfl, rfl, rfl⟩

/-- C10 (amended): only the mandatory `to` field reaches
`IpAddrVisitor::visit_str`, where the literal "default" always becomes
the IPv4 unspecified address and never the IPv6 one; for the optional
`from` and `via` fields every present value — the serialized "default"
included — fails to deserialize, because the visitor lacks a `visit_some`
implementation, so a persisted route whose from or via was the IPv6
unspecified address fails to load instead of acquiring a different id. -/
theorem C10_default_deserialization_amended :
    deserialize_ip_value (Yaml.str "default") = some (IpAddr.v4 ⟨0, 0, 0, 0⟩)
    ∧ IpAddr.v4 ⟨0, 0, 0, 0⟩ ≠ ipv6Unspecified
    ∧ (∀ v : Yaml, v ≠ Yaml.null → deserialize_ip_option_value v = none)
    ∧ deserialize_ip_option_value (serialize_ip_option (some ipv6Unspecified)) = none := by
  refine ⟨rfl, by decide, ?_, rfl⟩
  intro v hv
  cases v <;> first
    | exact absurd rfl hv
    | rfl

theorem C10_default_deserialization_amended_witness :
    deserialize_ip_option_value (Yaml.str "default") = none :=
  C10_default_deserialization_amended.2.2.1 (Yaml.str "default")
    (fun h => Yaml.noConfusion h)

/-! ### Claim C9 -/

theorem as_mapping_eq (y : Yaml) (m : List (String × Yaml))
    (h : y.as_mapping = some m) : y = .map m := by
  cases y <;> simp [Yaml.as_mapping] at h
  exact congrArg Yaml.map h

theorem mem_alInsert_cases {α : Type} (k : String) (v : α)
    (l : List (String × α)) (p : String × α) (h : p ∈ alInsert k v l) :
    p = (k, v) ∨ p ∈ l := by
  induction l with
  | nil => simp [alInsert] at h; exact Or.inl h
  | cons q rest ih =>
    by_cases hq : q.1 = k
    · rw [show alInsert k v (q :: rest) = (k, v) :: rest from by simp [alInsert, hq]] at h
      rcases List.mem_cons.mp h with h1 | h1
      · exact Or.inl h1
      · exact Or.inr (List.mem_cons_of_mem _ h1)
    · rw [show alInsert k v (q :: rest) = q :: alInsert k v rest from by
        simp [alInsert, hq]] at h
      rcases List.mem_cons.mp h with h1 | h1
      · exact Or.inr (List.mem_cons.mpr (Or.inl h1))
      · rcases ih h1 with h2 | h2
        · exact Or.inl h2
        · exact Or.inr (List.mem_cons_of_mem _ h2)

/-- Every interface name in a get_diff result comes from the status
document. -/
theorem getDiffEntries_keys_sub (ifaces : List (String × Yaml)) :
    ∀ out, getDiffEntries ifaces = some out →
      ∀ p ∈ out, p.1 ∈ ifaces.map Prod.fst := by
  induction ifaces with
  | nil =>
    intro out h p hp
    simp [getDiffEntries] at h
    subst h
    simp at hp
  | cons q rest ih =>
    intro out h p hp
    obtain ⟨n, idata⟩ := q
    simp only [getDiffEntries] at h
    split at h
    · exact absurd h (by simp)
    · rename_i m hm
      split at h
      · exact absurd h (by simp)
      · rename_i tail hr
        split at h
        · simp only [Option.some.injEq] at h
          subst h
          exact List.mem_cons_of_mem _ (ih tail hr p hp)
        · rename_i ss hs
          split at h
          · exact absurd h (by simp)
          · rename_i ssm hsm
            simp only [Option.some.injEq] at h
            subst h
            rcases mem_alInsert_cases _ _ _ _ hp with h1 | h1
            · rw [h1]
              exact List.mem_cons_self _ _
            · exact List.mem_cons_of_mem _ (ih tail hr p h1)

/-- Membership characterization of the get_diff worker: an entry appears
exactly when the status document has that interface with a `system_state`
key whose value is the fragment — whether or not the fragment is empty. -/
theorem getDiffEntries_mem_iff (ifaces : List (String × Yaml))
    (name : String) (frag : Frag) :
    ∀ out, (ifaces.map Prod.fst).Nodup → getDiffEntries ifaces = some out →
      ((name, frag) ∈ out ↔
        ∃ m, (name, Yaml.map m) ∈ ifaces
          ∧ alGet "system_state" m = some (Yaml.map frag)) := by
  induction ifaces with
  | nil =>
    intro out _ h
    simp [getDiffEntries] at h
    subst h
    simp
  | cons q rest ih =>
    intro out hnd h
    obtain ⟨n, idata⟩ := q
    simp only [List.map_cons, List.nodup_cons] at hnd
    obtain ⟨hn, hndr⟩ := hnd
    simp only [getDiffEntries] at h
    split at h
    · exact absurd h (by simp)
    · rename_i m hm
      have hidata := as_mapping_eq idata m hm
      subst hidata
      split at h
      · exact absurd h (by simp)
      · rename_i tail hr
        have htail := ih tail hndr hr
        split at h
        · rename_i hs
          simp only [Option.some.injEq] at h
          subst h
          rw [htail]
          constructor
          · rintro ⟨m', hmem, hget⟩
            exact ⟨m', List.mem_cons_of_mem _ hmem, hget⟩
          · rintro ⟨m', hmem, hget⟩
            rcases List.mem_cons.mp hmem with h1 | h1
            · have heq : name = n ∧ m' = m := by
                simpa [Prod.ext_iff] using h1
              rw [heq.2, hs] at hget
              exact Option.noConfusion hget
            · exact ⟨m', h1, hget⟩
        · rename_i ss hs
          split at h
          · exact absurd h (by simp)
          · rename_i ssm hsm
            simp only [Option.some.injEq] at h
            subst h
            have hss := as_mapping_eq ss ssm hsm
            subst hss
            have hkeys : n ∉ tail.map Prod.fst := by
              intro hcont
              obtain ⟨p, hp, hp1⟩ := List.mem_map.mp hcont
              exact hn (hp1 ▸ getDiffEntries_keys_sub rest tail hr p hp)
            rw [alInsert_of_not_mem_keys _ _ _ hkeys, List.mem_append]
            constructor
            · rintro (h1 | h1)
              · obtain ⟨m', hmem, hget⟩ := htail.mp h1
                exact ⟨m', List.mem_cons_of_mem _ hmem, hget⟩
              · have heq : name = n ∧ frag = ssm := by
                  simpa [Prod.ext_iff] using h1
                rcases heq with ⟨rfl, rfl⟩
                exact ⟨m, List.mem_cons_self _ _, hs⟩
            · rintro ⟨m', hmem, hget⟩
              rcases List.mem_cons.mp hmem with h1 | h1
              · have heq : name = n ∧ m' = m := by
                  simpa [Prod.ext_iff] using h1
                rcases heq with ⟨rfl, rfl⟩
                rw [hs] at hget
                have hfr : ssm = frag := by
                  have hpair := Option.some.inj hget
                  exact Yaml.map.inj hpair
                exact Or.inr (by simp [hfr])
              · exact Or.inl (htail.mpr ⟨m', h1, hget⟩)

/-- C9 counterexample: an interface whose status entry carries an empty
system_state mapping IS included in the get_diff result (with the empty
fragment), contradicting the claim that only interfaces with a non-empty
fragment appear. -/
theorem C9_get_diff_counterexample :
    ∃ out, get_diff (Yaml.map [("interfaces",
        Yaml.map [("eth0", Yaml.map [("system_state", Yaml.map [])])])]) = some out
      ∧ ("eth0", ([] : Frag)) ∈ out :=
  ⟨[("eth0", [])], rfl, by simp⟩

/-- C9 (amended): get_diff maps exactly the interfaces whose status entry
contains a system_state key to that fragment, with no filtering of empty
fragments. -/
theorem C9_get_diff_amended (top ifaces : List (String × Yaml)) (out : Diff)
    (htop : alGet "interfaces" top = some (Yaml.map ifaces))
    (hnd : (ifaces.map Prod.fst).Nodup)
    (h : get_diff (Yaml.map top) = some out) (name : String) (frag : Frag) :
    (name, frag) ∈ out ↔
      ∃ m, (name, Yaml.map m) ∈ ifaces
        ∧ alGet "system_state" m = some (Yaml.map frag) := by
  have hw : getDiffEntries ifaces = some out := by
    simpa [get_diff, Yaml.as_mapping, htop] using h
  exact getDiffEntries_mem_iff ifaces name frag out hnd hw

theorem C9_get_diff_amended_witness :
    ∃ m, ("eth0", Yaml.map m) ∈
        [("eth0", Yaml.map [("system_state", Yaml.map [("x", Yaml.bool true)])])]
      ∧ alGet "system_state" m = some (Yaml.map [("x", Yaml.bool true)]) :=
  (C9_get_diff_amended
      [("interfaces", Yaml.map [("eth0",
        Yaml.map [("system_state", Yaml.map [("x", Yaml.bool true)])])])]
      [("eth0", Yaml.map [("system_state", Yaml.map [("x", Yaml.bool true)])])]
      [("eth0", [("x", Yaml.bool true)])]
      rfl (by simp) rfl "eth0" [("x", Yaml.bool true)]).mp (by simp)

/-! ### Claims C2 and C3: the polling loop -/

theorem contains_iff_mem (l : List String) (x : String) :
    l.contains x = true ↔ x ∈ l := by
  simp

/-- The loop never performs more polls than its fuel allows. -/
theorem applyLoop_count_le (lr : LoadResult) (diffs : Nat → Except Unit Diff) :
    ∀ fuel i, (applyLoop lr diffs i fuel).2 ≤ fuel := by
  intro fuel
  induction fuel with
  | zero => intro i; simp [applyLoop]
  | succ n ih =>
    intro i
    cases h : loopIter lr (diffs i) with
    | exitWith e => simp [applyLoop, h]
    | retry =>
      simp only [applyLoop, h]
      exact Nat.succ_le_succ (ih (i + 1))

/-- The Bool condition of `interfaces_expecting_dhcp_address`, as a
proposition. -/
theorem expecting_cond_iff (e : Ethernet) :
    (e.dhcp4 || (e.dhcp6 &&
      (match e.accept_ra with
        | some b => b
        | none => false))) = true
      ↔ (e.dhcp4 = true ∨ (e.dhcp6 = true ∧ e.accept_ra = some true)) := by
  cases hra : e.accept_ra with
  | none => simp [hra]
  | some b => cases b <;> simp [hra]

/-- Membership in the DHCP-expected set: dhcp4 enabled, or dhcp6 enabled
with accept_ra equal to Some(true). -/
theorem mem_interfaces_expecting_iff (net : Network) (name : String) :
    name ∈ interfaces_expecting_dhcp_address net ↔
      ∃ eth, (name, eth) ∈ net.ethernets ∧
        (eth.dhcp4 = true ∨ (eth.dhcp6 = true ∧ eth.accept_ra = some true)) := by
  show name ∈ List.foldr _ [] net.ethernets ↔ _
  induction net.ethernets with
  | nil => simp
  | cons p rest ih =>
    obtain ⟨k, e⟩ := p
    simp only [List.foldr_cons]
    by_cases hc : (e.dhcp4 || (e.dhcp6 &&
        (match e.accept_ra with
          | some b => b
          | none => false))) = true
    · rw [if_pos hc]
      constructor
      · intro hm
        rcases List.mem_cons.mp hm with h1 | h1
        · subst h1
          exact ⟨e, List.mem_cons_self _ _, (expecting_cond_iff e).mp hc⟩
        · obtain ⟨eth, hmem, hcond⟩ := ih.mp h1
          exact ⟨eth, List.mem_cons_of_mem _ hmem, hcond⟩
      · rintro ⟨eth, hmem, hcond⟩
        rcases List.mem_cons.mp hmem with h1 | h1
        · have heq : name = k ∧ eth = e := by
            simpa [Prod.ext_iff] using h1
          exact List.mem_cons.mpr (Or.inl heq.1)
        · exact List.mem_cons.mpr (Or.inr (ih.mpr ⟨eth, h1, hcond⟩))
    · rw [if_neg hc]
      rw [ih]
      constructor
      · rintro ⟨eth, hmem, hcond⟩
        exact ⟨eth, List.mem_cons_of_mem _ hmem, hcond⟩
      · rintro ⟨eth, hmem, hcond⟩
        rcases List.mem_cons.mp hmem with h1 | h1
        · have heq : name = k ∧ eth = e := by
            simpa [Prod.ext_iff] using h1
          rw [heq.2] at hcond
          exact absurd ((expecting_cond_iff e).mpr hcond) hc
        · exact ⟨eth, h1, hcond⟩

/-- An iteration retries exactly when the diff is non-empty, the
missing-DHCP collection succeeds with a non-empty list, and that list
meets the DHCP-expected set of the loaded config. -/
theorem loopIter_retry_iff (net : Network) (d : Except Unit Diff) :
    loopIter (.ok net) d = .retry ↔
      ∃ diff, d = .ok diff ∧ diff ≠ [] ∧
        ∃ missing, interfaces_with_misssing_dhcp_address diff = some missing ∧
          missing ≠ [] ∧
          ∃ x, x ∈ missing ∧ x ∈ interfaces_expecting_dhcp_address net := by
  cases d with
  | error e => simp [loopIter]
  | ok diff =>
    cases diff with
    | nil => simp [loopIter]
    | cons a as =>
      cases h : interfaces_with_misssing_dhcp_address (a :: as) with
      | none => simp [loopIter, h]
      | some missing =>
        cases missing with
        | nil => simp [loopIter, h]
        | cons m ms =>
          cases hf : (m :: ms).filter
              (fun iface => (interfaces_expecting_dhcp_address net).contains iface) with
          | nil =>
            have hnone : ∀ x ∈ m :: ms, x ∉ interfaces_expecting_dhcp_address net := by
              intro x hx hmem
              have hnp := List.filter_eq_nil_iff.mp hf x hx
              exact hnp ((contains_iff_mem _ _).mpr hmem)
            simp only [loopIter, h, hf]
            constructor
            · intro hcontra
              exact absurd hcontra (by decide)
            · rintro ⟨diff, hdiff, _, missing', hmiss, _, x, hx, hxe⟩
              have hd : a :: as = diff := by simpa using hdiff
              subst hd
              rw [h] at hmiss
              have hm : (m :: ms) = missing' := by simpa using hmiss
              subst hm
              exact absurd hxe (hnone x hx)
          | cons f fs =>
            have hmf : f ∈ (m :: ms).filter
                (fun iface => (interfaces_expecting_dhcp_address net).contains iface) := by
              rw [hf]
              exact List.mem_cons_self _ _
            have hsplit := List.mem_filter.mp hmf
            simp only [loopIter, h, hf]
            constructor
            · intro _
              exact ⟨a :: as, rfl, by simp, m :: ms, h, by simp,
                f, hsplit.1, (contains_iff_mem _ _).mp hsplit.2⟩
            · intro _
              trivial

/-- An iteration ends the loop with a fatal "unchecked system_state
differences" error exactly when the diff is non-empty and no interface in
it carries a missing-DHCP flag (and this holds whatever the in-loop load
returned, since the check precedes its use). -/
theorem loopIter_fatal_iff (lr : LoadResult) (d : Except Unit Diff) :
    loopIter lr d = .exitWith .fatalUnchecked ↔
      ∃ diff, d = .ok diff ∧ diff ≠ [] ∧
        interfaces_with_misssing_dhcp_address diff = some [] := by
  cases d with
  | error e => simp [loopIter]
  | ok diff =>
    cases diff with
    | nil => simp [loopIter]
    | cons a as =>
      cases h : interfaces_with_misssing_dhcp_address (a :: as) with
      | none => simp [loopIter, h]
      | some missing =>
        cases missing with
        | nil => simp [loopIter, h]
        | cons m ms =>
          constructor
          · intro hcontra
            cases lr with
            | ok network =>
              cases hfil : (m :: ms).filter
                  (fun iface =>
                    (interfaces_expecting_dhcp_address network).contains iface) with
              | nil =>
                simp only [loopIter, h, hfil] at hcontra
                exact absurd hcontra (by decide)
              | cons f fs =>
                simp only [loopIter, h, hfil] at hcontra
                exact absurd hcontra (by decide)
            | ioError =>
              simp only [loopIter, h] at hcontra
              exact absurd hcontra (by decide)
            | panicked =>
              simp only [loopIter, h] at hcontra
              exact absurd hcontra (by decide)
          · rintro ⟨diff, hdiff, _, hmiss⟩
            have hd : a :: as = diff := by simpa using hdiff
            subst hd
            rw [h] at hmiss
            simp at hmiss

/-- C2: the polling loop of `apply_with_diff` performs at most 15
`get_diff` polls; an iteration sleeps and retries exactly when some
interface flagged missing-DHCP in the diff is also DHCP-expected in the
persisted config — where DHCP-expected means dhcp4 true, or dhcp6 true
with accept_ra equal to Some(true) — and any other iteration outcome
leaves the loop after that single poll. -/
theorem C2_apply_loop_bounded_and_retry_only_on_dhcp (net : Network)
    (diffs : Nat → Except Unit Diff) (i fuel : Nat) :
    (applyLoop (.ok net) diffs 0 SECONDS_TO_WAIT).2 ≤ 15
    ∧ (∀ d, loopIter (.ok net) d = .retry ↔
        ∃ diff, d = .ok diff ∧ diff ≠ [] ∧
          ∃ missing, interfaces_with_misssing_dhcp_address diff = some missing ∧
            missing ≠ [] ∧
            ∃ x, x ∈ missing ∧ x ∈ interfaces_expecting_dhcp_address net)
    ∧ (∀ nm, nm ∈ interfaces_expecting_dhcp_address net ↔
        ∃ eth, (nm, eth) ∈ net.ethernets ∧
          (eth.dhcp4 = true ∨ (eth.dhcp6 = true ∧ eth.accept_ra = some true)))
    ∧ (∀ a, loopIter (.ok net) (diffs i) = .exitWith a →
        applyLoop (.ok net) diffs i (fuel + 1) = (a, 1)) := by
  refine ⟨applyLoop_count_le (.ok net) diffs SECONDS_TO_WAIT 0,
    loopIter_retry_iff net, mem_interfaces_expecting_iff net, ?_⟩
  intro a ha
  simp [applyLoop, ha]

theorem C2_apply_loop_bounded_and_retry_only_on_dhcp_witness :
    (applyLoop (.ok Network.new) (fun _ => .ok []) 0 SECONDS_TO_WAIT).2 ≤ 15
    ∧ applyLoop (.ok Network.new) (fun _ => .ok []) 0 1 = (.converged, 1) :=
  ⟨(C2_apply_loop_bounded_and_retry_only_on_dhcp Network.new (fun _ => .ok []) 0 0).1,
   (C2_apply_loop_bounded_and_retry_only_on_dhcp Network.new
      (fun _ => .ok []) 0 0).2.2.2 .converged rfl⟩

/-- C3: the fatal "unchecked system_state differences" outcome occurs in
an iteration exactly when the diff is non-empty and carries no
missing-DHCP flag; when it occurs the loop stops at that poll without
retrying; and the overall `apply_with_diff` returns that error exactly
when the renderer apply succeeded and the loop exited fatally. -/
theorem C3_fatal_unchecked_exactly (fs : Fs) (applyOk : Bool)
    (diffs : Nat → Except Unit Diff) (finalDiff : Diff) (lr : LoadResult)
    (i fuel : Nat) :
    (∀ d, loopIter lr d = .exitWith .fatalUnchecked ↔
      ∃ diff, d = .ok diff ∧ diff ≠ [] ∧
        interfaces_with_misssing_dhcp_address diff = some [])
    ∧ (loopIter lr (diffs i) = .exitWith .fatalUnchecked →
        applyLoop lr diffs i (fuel + 1) = (.fatalUnchecked, 1))
    ∧ (apply_with_diff fs applyOk diffs finalDiff = .error .uncheckedDiff ↔
        applyOk = true ∧
          (applyLoop (load_config fs []).1 diffs 0 SECONDS_TO_WAIT).1
            = .fatalUnchecked) := by
  refine ⟨loopIter_fatal_iff lr, ?_, ?_⟩
  · intro ha
    simp [applyLoop, ha]
  · cases applyOk with
    | false => simp [apply_with_diff]
    | true =>
      cases hexit : (applyLoop (load_config fs []).1 diffs 0 SECONDS_TO_WAIT).1 with
      | fatalUnchecked => simp [apply_with_diff, hexit]
      | diffError => simp [apply_with_diff, hexit]
      | panicked => simp [apply_with_diff, hexit]
      | converged =>
        cases hfl : (load_config fs finalDiff).1 <;>
          simp [apply_with_diff, hexit, hfl]
      | softAccept =>
        cases hfl : (load_config fs finalDiff).1 <;>
          simp [apply_with_diff, hexit, hfl]
      | exhausted =>
        cases hfl : (load_config fs finalDiff).1 <;>
          simp [apply_with_diff, hexit, hfl]

theorem C3_fatal_unchecked_exactly_witness :
    apply_with_diff ⟨none, none, [], false⟩ true
      (fun _ => .ok [("eth0", [("state-mismatch", Yaml.bool true)])]) []
      = .error .uncheckedDiff :=
  (C3_fatal_unchecked_exactly ⟨none, none, [], false⟩ true
      (fun _ => .ok [("eth0", [("state-mismatch", Yaml.bool true)])]) []
      .ioError 0 0).2.2.mpr ⟨rfl, rfl⟩

end OpensightNet
